import Mathlib

/-!
Shallow embedding of the core of `pyats_mcp/pyats_resources.py`:
output cleaning, testbed/connection caching, show-command validation,
configuration normalization, the show-command pipeline, the script
safety gate and the test-script runner.  Strings are modelled as
`List Char`; Python `float` timestamps as `ℚ`; fallible calls as
`Except`; module-level mutable caches as explicit state records.
-/

deriving instance DecidableEq for Except

/-- Convert a Lean string literal to the `List Char` representation used
throughout the embedding. -/
def strL (s : String) : List Char := s.data

/-- Python whitespace characters as recognised by `str.strip()` /
`str.isspace()` for the character ranges exercised here. -/
def pyIsSpace (c : Char) : Bool :=
  c = ' ' || c = '\t' || c = '\n' || c = '\r' || c = '\x0b' || c = '\x0c' ||
  c = '\x1c' || c = '\x1d' || c = '\x1e' || c = '\x1f' || c = '\x85' ||
  c = ' ' || c = ' ' || c = ' '

/-- Membership of a character in the Python set `string.printable`
(ASCII 0x20–0x7E plus TAB, LF, VT, FF, CR). -/
def pyPrintable (c : Char) : Bool :=
  (0x20 ≤ c.toNat && c.toNat ≤ 0x7e) ||
  c.toNat = 9 || c.toNat = 10 || c.toNat = 11 || c.toNat = 12 || c.toNat = 13

/-- ASCII lower-casing of one character, as `str.lower()` acts on the
ASCII range. -/
def lowerChar (c : Char) : Char :=
  if 'A' ≤ c && c ≤ 'Z' then Char.ofNat (c.toNat + 32) else c

/-- Python `str.lower()` on a character list. -/
def lowerL (l : List Char) : List Char := l.map lowerChar

/-- Left strip: drop leading characters satisfying `p` (`str.lstrip`). -/
def lstripWith (p : Char → Bool) (l : List Char) : List Char := l.dropWhile p

/-- Right strip: drop trailing characters satisfying `p` (`str.rstrip`). -/
def rstripWith (p : Char → Bool) (l : List Char) : List Char :=
  (l.reverse.dropWhile p).reverse

/-- Python `s.strip()`: remove leading and trailing whitespace. -/
def pyStrip (l : List Char) : List Char :=
  lstripWith pyIsSpace (rstripWith pyIsSpace l)

/-- Python `s.rstrip("\r\n")`: remove trailing CR/LF characters only. -/
def rstripCRLF (l : List Char) : List Char :=
  rstripWith (fun c => c = '\r' || c = '\n') l

/-- Python `s.strip("\n")`: remove leading and trailing newline characters. -/
def stripNL (l : List Char) : List Char :=
  lstripWith (fun c => c = '\n') (rstripWith (fun c => c = '\n') l)

/-- Boolean list-prefix test (`str.startswith`). -/
def isPrefB : List Char → List Char → Bool
  | [], _ => true
  | _ :: _, [] => false
  | a :: as, b :: bs => if a = b then isPrefB as bs else false

/-- Boolean substring test: `needle in hay` for Python strings. -/
def containsSub (needle : List Char) : List Char → Bool
  | [] => isPrefB needle []
  | c :: rest => isPrefB needle (c :: rest) || containsSub needle rest

/-- Split a character list at every occurrence of `sep`
(Python `str.split(sep)`, keeping empty segments). -/
def splitOnChar (sep : Char) : List Char → List (List Char)
  | [] => [[]]
  | c :: rest =>
    if c = sep then [] :: splitOnChar sep rest
    else
      match splitOnChar sep rest with
      | [] => [[c]]
      | h :: t => (c :: h) :: t

/-- Join segments with a separator character (inverse of `splitOnChar`). -/
def joinWith (sep : Char) : List (List Char) → List Char
  | [] => []
  | [l] => l
  | l :: rest => l ++ sep :: joinWith sep rest

/-- Line-boundary characters recognised by Python `str.splitlines()`. -/
def isLineBreak (c : Char) : Bool :=
  c = '\n' || c = '\r' || c = '\x0b' || c = '\x0c' ||
  c = '\x1c' || c = '\x1d' || c = '\x1e' || c = '\x85' ||
  c = ' ' || c = ' '

/-- Worker for `splitlines`; `acc` holds the current line reversed. -/
def splitlinesAux : List Char → List Char → List (List Char)
  | acc, [] => if acc.isEmpty then [] else [acc.reverse]
  | acc, '\r' :: '\n' :: rest => acc.reverse :: splitlinesAux [] rest
  | acc, c :: rest =>
    if isLineBreak c then acc.reverse :: splitlinesAux [] rest
    else splitlinesAux (c :: acc) rest

/-- Python `str.splitlines()`: split on line boundaries, treating CRLF as
a single boundary and dropping a trailing empty line. -/
def splitlines (l : List Char) : List (List Char) := splitlinesAux [] l

-- ---------------------------------------------------------------------------
-- Output Cleaning (`clean_output`)
-- ---------------------------------------------------------------------------

/-- Single-character alternative of the `ANSI_ESCAPE` pattern:
the class `[@-Z\\-_]`, i.e. 0x40–0x5A and 0x5C–0x5F. -/
def ansiC1 (c : Char) : Bool :=
  (0x40 ≤ c.toNat && c.toNat ≤ 0x5a) || (0x5c ≤ c.toNat && c.toNat ≤ 0x5f)

/-- CSI parameter bytes: the regex class ranging over 0x30–0x3F. -/
def ansiParam (c : Char) : Bool := 0x30 ≤ c.toNat && c.toNat ≤ 0x3f

/-- CSI intermediate bytes: the regex class ranging over 0x20–0x2F. -/
def ansiInter (c : Char) : Bool := 0x20 ≤ c.toNat && c.toNat ≤ 0x2f

/-- CSI final bytes: the regex class ranging over 0x40–0x7E. -/
def ansiFinal (c : Char) : Bool := 0x40 ≤ c.toNat && c.toNat ≤ 0x7e

/-- Match the CSI branch of `ANSI_ESCAPE` (open bracket, then parameter
bytes, then intermediate bytes, then one final byte) against the text
following the two characters ESC and open bracket; on success return the
remainder after the match.  The three byte classes are pairwise disjoint,
so greedy matching needs no backtracking. -/
def csiMatch (l : List Char) : Option (List Char) :=
  match (l.dropWhile ansiParam).dropWhile ansiInter with
  | [] => none
  | c :: rest => if ansiFinal c then some rest else none

/-- Match the whole `ANSI_ESCAPE` pattern against the text following an
ESC byte; on success return the remainder after the match. -/
def matchEsc (l : List Char) : Option (List Char) :=
  match l with
  | [] => none
  | c :: rest =>
    if ansiC1 c then some rest
    else if c = '[' then csiMatch rest
    else none

/-- Left-to-right scan of `re.sub(ANSI_ESCAPE, "", ·)` with explicit fuel;
every step consumes at least one character, so `l.length` fuel suffices. -/
def ansiSubFuel : Nat → List Char → List Char
  | 0, l => l
  | _ + 1, [] => []
  | n + 1, c :: rest =>
    if c = '\x1b' then
      match matchEsc rest with
      | some r => ansiSubFuel n r
      | none => c :: ansiSubFuel n rest
    else c :: ansiSubFuel n rest

/-- Embeds `ANSI_ESCAPE.sub("", l)`: delete every non-overlapping match of the
ANSI escape pattern, scanning left to right. -/
def ansiSub (l : List Char) : List Char := ansiSubFuel l.length l

/-- Embeds `clean_output`: strip ANSI escape sequences, then keep only characters
in `string.printable`. -/
def clean_output (output : List Char) : List Char :=
  (ansiSub output).filter pyPrintable

theorem sanity_clean_output :
    clean_output (strL "a\x1b[31mred\x1b[0m\x07b") = strL "aredb" := by decide

theorem sanity_pyStrip :
    pyStrip (strL "  show version  ") = strL "show version" := by decide

theorem sanity_splitlines :
    splitlines (strL "one\r\ntwo\nthree") = [strL "one", strL "two", strL "three"] := by
  decide

-- ---------------------------------------------------------------------------
-- Testbed cache (`_load_testbed`)
-- ---------------------------------------------------------------------------

/-- The module-level `_TESTBED_CACHE` dict: load time and the cached
testbed object (snapshots are identified by a natural number, so that
"identical instance" is expressible). -/
structure TBCache where
  loaded_at : ℚ
  tb : Option ℕ
  deriving DecidableEq, Repr

/-- Result of one `_load_testbed()` call: the returned snapshot, the
updated cache, and whether `loader.load` was invoked. -/
structure TBLoadResult where
  tb : ℕ
  cache : TBCache
  reloaded : Bool
  deriving DecidableEq, Repr

/-- Embeds `_load_testbed()`: reload when no snapshot is cached or the cached one
is older than `ttl` seconds; otherwise return the cached snapshot.
`now` is the sampled `time.time()` and `fresh` the snapshot that
`loader.load` would produce on this call. -/
def load_testbed (ttl : ℤ) (now : ℚ) (fresh : ℕ) (c : TBCache) : TBLoadResult :=
  if c.tb = none ∨ now - c.loaded_at > (ttl : ℚ) then
    ⟨fresh, ⟨now, some fresh⟩, true⟩
  else
    ⟨c.tb.getD 0, c, false⟩

-- ---------------------------------------------------------------------------
-- Connection cache (`_evict_expired_connections`, `_get_device`,
-- `_disconnect_device`)
-- ---------------------------------------------------------------------------

/-- A device object as seen by the cache code: its testbed name and the
state reported by `is_connected()`. -/
structure Device where
  name : String
  connected : Bool
  deriving DecidableEq, Repr

/-- Result of `_disconnect_device`: the device afterwards, the connection
cache afterwards, and whether `device.disconnect()` was invoked. -/
structure DiscResult where
  dev : Option Device
  cache : List (String × ℚ)
  disconnectCalled : Bool
  deriving DecidableEq, Repr

/-- Refresh `last_used` of the cache entry for `name`, when present
(the swallowed `KeyError` branch leaves an absent entry absent). -/
def updateLastUsed (name : String) (now : ℚ) (cache : List (String × ℚ)) :
    List (String × ℚ) :=
  cache.map (fun p => if p.1 = name then (p.1, now) else p)

/-- Embeds `_disconnect_device(device, force)`: with caching enabled and no
force flag, only refresh the entry field `last_used`; otherwise disconnect
when the device reports itself connected. -/
def disconnect_device (ttl : ℤ) (force : Bool) (now : ℚ) (dev : Option Device)
    (cache : List (String × ℚ)) : DiscResult :=
  match dev with
  | none => ⟨none, cache, false⟩
  | some d =>
    if ttl > 0 ∧ force = false then
      ⟨some d, updateLastUsed d.name now cache, false⟩
    else if d.connected then
      ⟨some ⟨d.name, false⟩, cache, true⟩
    else
      ⟨some d, cache, false⟩

/-- The shared device-side state touched by `_get_device`: the names in
the loaded testbed, the set of devices currently reporting
`is_connected()`, and the `_CONN_CACHE` entries (name, `last_used`). -/
structure DevEnv where
  tbDevices : List String
  connectedDevs : List String
  connCache : List (String × ℚ)
  deriving DecidableEq, Repr

/-- Embeds `_evict_expired_connections()`: with caching enabled, disconnect and
drop every cache entry whose `last_used` is older than `ttl` seconds. -/
def evict_expired_connections (ttl : ℤ) (now : ℚ) (env : DevEnv) : DevEnv :=
  if ttl ≤ 0 then env
  else
    let expired := env.connCache.filter (fun p => decide (now - p.2 > (ttl : ℚ)))
    let expiredNames := expired.map Prod.fst
    { tbDevices := env.tbDevices
      connectedDevs := env.connectedDevs.filter (fun n => ! expiredNames.contains n)
      connCache :=
        env.connCache.filter (fun p => ! decide (now - p.2 > (ttl : ℚ))) }

/-- Result of `_get_device`: the returned device name or the raised
error, the state afterwards, and whether `device.connect()` was invoked. -/
structure GetDeviceResult where
  result : Except String String
  env : DevEnv
  connectCalled : Bool
  deriving DecidableEq, Repr

/-- The `ValueError` message raised for an unknown device name. -/
def deviceNotFoundMsg (name path : String) : String :=
  "Device \x27" ++ name ++ "\x27 not found in testbed \x27" ++ path ++ "\x27."

/-- Embeds `_get_device(device_name)`: look the name up in the testbed, serve a
connected entry from the cache when caching is enabled, otherwise connect
on demand (`connectOk` is the outcome the external `connect()` call would
have) and populate the cache. -/
def get_device (ttl : ℤ) (now : ℚ) (path : String) (connectOk : Bool)
    (env : DevEnv) (name : String) : GetDeviceResult :=
  if env.tbDevices.contains name = false then
    ⟨.error (deviceNotFoundMsg name path), env, false⟩
  else
    let env1 := if ttl > 0 then evict_expired_connections ttl now env else env
    if ttl > 0 ∧ env1.connCache.any (fun p => p.1 == name) = true ∧
        env1.connectedDevs.contains name = true then
      ⟨.ok name, { env1 with connCache := updateLastUsed name now env1.connCache },
        false⟩
    else
      if env1.connectedDevs.contains name = false then
        if connectOk then
          let env2 := { env1 with connectedDevs := name :: env1.connectedDevs }
          let env3 :=
            if ttl > 0 then
              { env2 with
                connCache := (name, now) ::
                  env2.connCache.filter (fun p => p.1 ≠ name) }
            else env2
          ⟨.ok name, env3, true⟩
        else ⟨.error "connect failed", env1, true⟩
      else
        let env3 :=
          if ttl > 0 then
            { env1 with
              connCache := (name, now) ::
                env1.connCache.filter (fun p => p.1 ≠ name) }
          else env1
        ⟨.ok name, env3, false⟩

-- ---------------------------------------------------------------------------
-- Show-command validation (`validate_show_command`)
-- ---------------------------------------------------------------------------

/-- The list `SHOW_BLOCK_CHARS`. -/
def SHOW_BLOCK_CHARS : List Char := ['|', '>', '<']

/-- The set `SHOW_BLOCK_WORDS`. -/
def SHOW_BLOCK_WORDS : List (List Char) :=
  [strL "copy", strL "delete", strL "erase", strL "reload", strL "write",
   strL "configure", strL "conf"]

/-- A character matched by the token regex: letters, digits, underscore,
hyphen. -/
def isWordChar (c : Char) : Bool :=
  ('a' ≤ c && c ≤ 'z') || ('A' ≤ c && c ≤ 'Z') || ('0' ≤ c && c ≤ '9') ||
  c = '_' || c = '-'

/-- Worker for `tokensOf`: `cur` holds the current word-character run in
reverse, `none` when the scan is between runs. -/
def tokensOfAux : Option (List Char) → List Char → List (List Char)
  | cur, [] =>
    match cur with
    | some r => [r.reverse]
    | none => []
  | cur, c :: rest =>
    if isWordChar c then tokensOfAux (some (c :: cur.getD [])) rest
    else
      match cur with
      | some r => r.reverse :: tokensOfAux none rest
      | none => tokensOfAux none rest

/-- Result of `re.findall` for the word-token regex: the maximal runs of word
characters, in order. -/
def tokensOf (l : List Char) : List (List Char) := tokensOfAux none l

/-- Embeds `validate_show_command(command)`: `None` when the command passes all
three checks, otherwise the first rejection message. -/
def validate_show_command (command : List Char) : Option (List Char) :=
  let cmd := pyStrip command
  let cmdLower := lowerL cmd
  if isPrefB (strL "show") cmdLower = false then
    some (strL "Command \x27" ++ command ++ strL "\x27 is not a \x27show\x27 command.")
  else if SHOW_BLOCK_CHARS.any (fun ch => cmdLower.contains ch) = true then
    some (strL "Command \x27" ++ command ++ strL "\x27 contains disallowed pipe/redirection.")
  else
    match (tokensOf cmdLower).find? (fun t => SHOW_BLOCK_WORDS.contains t) with
    | some t =>
      some (strL "Command \x27" ++ command ++ strL "\x27 contains disallowed term \x27" ++
        t ++ strL "\x27.")
    | none => none

theorem sanity_validate_pass :
    validate_show_command (strL "show version") = none := by decide

theorem sanity_validate_pipe :
    validate_show_command (strL "show running-config | include foo") =
      some (strL "Command \x27show running-config | include foo\x27 contains disallowed pipe/redirection.") := by
  decide

theorem sanity_validate_delete :
    validate_show_command (strL "delete flash:old.bin") =
      some (strL "Command \x27delete flash:old.bin\x27 is not a \x27show\x27 command.") := by
  decide

-- ---------------------------------------------------------------------------
-- Configuration normalization (`_normalize_config_lines`)
-- ---------------------------------------------------------------------------

/-- The set `_WRAPPER_LINES`. -/
def WRAPPER_LINES : List (List Char) :=
  [strL "configure terminal", strL "conf t", strL "config t",
   strL "configure t", strL "end"]

/-- Space or tab, the characters the `textwrap.dedent` regexes treat as
indentation. -/
def isSpaceTab (c : Char) : Bool := c = ' ' || c = '\t'

/-- Python `textwrap.dedent` first blanks every line consisting solely of spaces
and tabs. -/
def blankWsOnly (seg : List Char) : List Char :=
  if seg ≠ [] ∧ seg.all isSpaceTab = true then [] else seg

/-- The leading space-and-tab run of a line that contains at least one
other character (the capture of the dedent leading-whitespace regex). -/
def indentOf (seg : List Char) : Option (List Char) :=
  if seg.any (fun c => ! isSpaceTab c) = true then some (seg.takeWhile isSpaceTab)
  else none

/-- Longest common prefix of two character lists; one step of the dedent
margin computation (it subsumes the two startswith branches). -/
def commonPrefix : List Char → List Char → List Char
  | x :: xs, y :: ys => if x = y then x :: commonPrefix xs ys else []
  | _, _ => []

/-- Fold the margin over all captured indents, as dedent does. -/
def marginOf : List (List Char) → List Char
  | [] => []
  | i :: rest => rest.foldl commonPrefix i

/-- Embeds `textwrap.dedent(text)`: blank whitespace-only lines, compute the
common space-and-tab margin of the remaining lines, and strip that margin
from every line that starts with it. -/
def dedent (text : List Char) : List Char :=
  let segs := (splitOnChar '\n' text).map blankWsOnly
  let margin := marginOf (segs.filterMap indentOf)
  let segs2 :=
    if margin = [] then segs
    else segs.map (fun l => if isPrefB margin l then l.drop margin.length else l)
  joinWith '\n' segs2

/-- Contribution of one raw line to the output of the normalization loop:
drop blank lines, split semicolon-joined lines into stripped parts and
drop wrapper parts, drop whole-line wrappers, keep anything else with its
indentation (only trailing CR/LF removed). -/
def processLine (line : List Char) : List (List Char) :=
  let s := rstripCRLF line
  if pyStrip s = [] then []
  else if s.contains ';' then
    (((splitOnChar ';' s).map pyStrip).filter (fun p => p ≠ [])).filter
      (fun p => ! WRAPPER_LINES.contains (lowerL p))
  else if WRAPPER_LINES.contains (lowerL (pyStrip s)) then []
  else [s]

/-- The normalization loop over all raw lines, in order. -/
def processLines (ls : List (List Char)) : List (List Char) :=
  ls.flatMap processLine

/-- The three shapes `config_commands` can take: `None`, a list (already
stringified), or a multi-line block string. -/
inductive ConfigInput where
  | noneInput
  | listInput (ls : List (List Char))
  | strInput (s : List Char)
  deriving DecidableEq, Repr

/-- The raw lines the function iterates over: the stringified list
elements, or the dedented, newline-stripped, line-split block. -/
def rawLinesOf : ConfigInput → List (List Char)
  | .noneInput => []
  | .listInput ls => ls
  | .strInput s => splitlines (stripNL (dedent s))

/-- Embeds `_normalize_config_lines(config_commands)`. -/
def normalize_config_lines (x : ConfigInput) : List (List Char) :=
  processLines (rawLinesOf x)

theorem sanity_normalize_list :
    normalize_config_lines (.listInput
      [strL "configure terminal", strL "interface Gi0/0", strL " cdp enable",
       strL " exit", strL "end"]) =
    [strL "interface Gi0/0", strL " cdp enable", strL " exit"] := by decide

theorem sanity_normalize_block :
    normalize_config_lines (.strInput
      (strL "    configure terminal\n    interface Gi0/0\n     no shut; end\n")) =
    [strL "interface Gi0/0", strL "no shut"] := by decide

-- ---------------------------------------------------------------------------
-- Show-command pipeline (`run_show_command_async`)
-- ---------------------------------------------------------------------------

/-- Outcomes of the external calls the pipeline makes: the device
acquisition, the `execute`, the parser lookup (`ok true` = a parser class
is available), and the parse attempt.  An `error e` value models that
call raising an exception with message `e`. -/
structure ShowOracle where
  getDevice : Except (List Char) Unit
  execute : Except (List Char) (List Char)
  getParserResult : Except (List Char) Bool
  parseResult : Except (List Char) (List Char)

/-- The result dictionary of `run_show_command_async`. -/
structure ShowOutcome where
  status : List Char
  device : Option (List Char)
  command : Option (List Char)
  parsed_output : Option (List Char)
  raw_output : Option (List Char)
  parser_used : Option Bool
  error : Option (List Char)
  deriving DecidableEq, Repr

/-- One pipeline run: the returned dictionary, whether the `finally`
release step ran, and the device value it was handed (`none` both when
release did not run and when it ran on a `None` device). -/
structure ShowRun where
  outcome : ShowOutcome
  releaseRan : Bool
  releasedDevice : Option Unit
  deriving DecidableEq, Repr

/-- An error outcome carrying device, command and message. -/
def showError (name cmd e : List Char) : ShowOutcome :=
  ⟨strL "error", some name, some cmd, none, none, none, some e⟩

/-- The `_run` body of `run_show_command_async(device_name, command)`:
validate, then acquire/execute/clean/parse under a try block whose
`finally` always calls `_disconnect_device(device)`. -/
def run_show_command (o : ShowOracle) (device_name command : List Char) : ShowRun :=
  match validate_show_command command with
  | some valErr =>
    ⟨⟨strL "error", none, none, none, none, none, some valErr⟩, false, none⟩
  | none =>
    match o.getDevice with
    | .error e => ⟨showError device_name command e, true, none⟩
    | .ok dev =>
      match o.execute with
      | .error e => ⟨showError device_name command e, true, some dev⟩
      | .ok raw =>
        let cleaned := clean_output raw
        match o.getParserResult with
        | .error e => ⟨showError device_name command e, true, some dev⟩
        | .ok false =>
          ⟨⟨strL "completed", some device_name, some command, none, some cleaned,
            some false, none⟩, true, some dev⟩
        | .ok true =>
          match o.parseResult with
          | .ok parsed =>
            ⟨⟨strL "completed", some device_name, some command, some parsed,
              some cleaned, some true, none⟩, true, some dev⟩
          | .error _ =>
            ⟨⟨strL "completed", some device_name, some command, none, some cleaned,
              some false, none⟩, true, some dev⟩

-- ---------------------------------------------------------------------------
-- Script safety gate (`reject_unsafe_script`)
-- ---------------------------------------------------------------------------

/-- The list `BANNED_IMPORTS`. -/
def BANNED_IMPORTS : List (List Char) :=
  [strL "socket", strL "requests", strL "urllib", strL "httpx",
   strL "telnetlib", strL "paramiko", strL "netmiko"]

/-- The list `BANNED_PATTERNS`: each entry pairs the pattern text as displayed in
the rejection message with the literal string the regex matches (all nine
patterns are escaped literals, so case-insensitive `re.search` is
case-insensitive substring search). -/
def BANNED_PATTERNS : List (List Char × List Char) :=
  [(strL "\\.connect\\(", strL ".connect("),
   (strL "\\.disconnect\\(", strL ".disconnect("),
   (strL "Testbed\\(", strL "Testbed("),
   (strL "loader\\.load", strL "loader.load"),
   (strL "subprocess\\.", strL "subprocess."),
   (strL "os\\.system", strL "os.system"),
   (strL "eval\\(", strL "eval("),
   (strL "exec\\(", strL "exec("),
   (strL "__import__", strL "__import__")]

/-- Whether one banned import token is hit: `import <tok>` or
`from <tok>` occurs in the lower-cased script. -/
def importHit (lowerScript tok : List Char) : Bool :=
  containsSub (strL "import " ++ tok) lowerScript ||
  containsSub (strL "from " ++ tok) lowerScript

/-- Whether one banned pattern is hit: its literal occurs
case-insensitively in the script. -/
def patternHit (script : List Char) (pat : List Char × List Char) : Bool :=
  containsSub (lowerL pat.2) (lowerL script)

/-- Embeds `reject_unsafe_script(script)`: first matching banned import, then
first matching banned pattern, else `None`. -/
def reject_unsafe_script (script : List Char) : Option (List Char) :=
  let lower := lowerL script
  match BANNED_IMPORTS.find? (fun tok => importHit lower tok) with
  | some tok => some (strL "Script contains banned import: " ++ tok)
  | none =>
    match BANNED_PATTERNS.find? (fun pat => patternHit script pat) with
    | some pat => some (strL "Script contains banned pattern: " ++ pat.1)
    | none => none

theorem sanity_reject_socket :
    reject_unsafe_script (strL "import socket\nprint(1)") =
      some (strL "Script contains banned import: socket") := by decide

theorem sanity_reject_clean :
    reject_unsafe_script (strL "x = 1\nprint(x)") = none := by decide

-- ---------------------------------------------------------------------------
-- Test-script runner (`_extract_overall_result`, `_run_test_script`)
-- ---------------------------------------------------------------------------

/-- Loop body of `_extract_overall_result`: find the first line containing
both "passed" and "overall" (then PASSED) or both "failed" and "overall"
(then FAILED); otherwise UNKNOWN. -/
def extractOverallGo : List (List Char) → List Char
  | [] => strL "UNKNOWN"
  | line :: rest =>
    let lower := lowerL line
    if containsSub (strL "passed") lower && containsSub (strL "overall") lower then
      strL "PASSED"
    else if containsSub (strL "failed") lower && containsSub (strL "overall") lower then
      strL "FAILED"
    else extractOverallGo rest

/-- Embeds `_extract_overall_result(stdout)`: split stdout into lines and
scan them in order with `extractOverallGo`. -/
def extract_overall_result (stdout : List Char) : List Char :=
  extractOverallGo (splitlines stdout)

/-- What `subprocess.run` produced when it did not time out. -/
structure SubpResult where
  returncode : ℤ
  stdout : List Char
  stderr : List Char
  deriving DecidableEq, Repr

/-- The fate of the report file: missing, unreadable or unparsable JSON,
whitespace-only content, or parsed data. -/
inductive ReportCase where
  | absent
  | unreadable
  | blank
  | parsed (data : List Char)
  deriving DecidableEq, Repr

/-- Outcomes of the external steps of `_run_test_script`: whether the
filesystem setup (mkdir and the two writes) succeeds, the subprocess
result (`none` = `TimeoutExpired`), and the fate of the report file. -/
structure RunOracle where
  setupOk : Bool
  subp : Option SubpResult
  report : ReportCase
  deriving DecidableEq, Repr

/-- The payload `_run_test_script` returns. -/
structure RunPayload where
  status : List Char
  returncode : Option ℤ
  overall_result : Option (List Char)
  stdout : Option (List Char)
  stderr : Option (List Char)
  report : Option (List Char)
  error : Option (List Char)
  artifacts_dir : List Char
  pathsSet : Bool
  artifactsDeleted : Bool
  deriving DecidableEq, Repr

/-- Embeds `_run_test_script(test_script_content, timeout_s)`: write the script
and job file, run the external binary, then assemble the payload; a
missing, unreadable or blank report leaves the report field `None`; the
run directory is removed only when retention is disabled. -/
def run_test_script (o : RunOracle) (timeout_s : ℤ) (keepArtifacts : Bool)
    (runDir : List Char) : RunPayload :=
  if o.setupOk = false then
    ⟨strL "error", none, none, none, none, none, some (strL "setup failed"),
      runDir, false, false⟩
  else
    match o.subp with
    | none =>
      ⟨strL "error", none, none, none, none, none,
        some (strL "pyATS job timed out after " ++ strL (toString timeout_s) ++
          strL "s"),
        runDir, false, false⟩
    | some r =>
      let reportData : Option (List Char) :=
        match o.report with
        | .parsed d => some d
        | _ => none
      ⟨strL "completed", some r.returncode,
        some (extract_overall_result r.stdout), some r.stdout, some r.stderr,
        reportData, none, runDir, true, ! keepArtifacts⟩

-- ---------------------------------------------------------------------------
-- Supporting lemmas: dropWhile / strip
-- ---------------------------------------------------------------------------

theorem dropWhile_head_false (p : Char → Bool) :
    ∀ (l : List Char) (c : Char), (l.dropWhile p).head? = some c → p c = false := by
  intro l
  induction l with
  | nil => intro c h; simp [List.dropWhile] at h
  | cons a as ih =>
    intro c h
    rw [List.dropWhile_cons] at h
    by_cases hp : p a = true
    · rw [if_pos hp] at h; exact ih c h
    · rw [if_neg hp] at h
      simp only [List.head?_cons, Option.some.injEq] at h
      subst h
      exact Bool.eq_false_iff.mpr hp

theorem dropWhile_eq_self_of_head (p : Char → Bool) (l : List Char)
    (h : ∀ c, l.head? = some c → p c = false) : l.dropWhile p = l := by
  cases l with
  | nil => rfl
  | cons a as =>
    rw [List.dropWhile_cons, if_neg]
    simp [h a rfl]

theorem mem_dropWhile_or (p : Char → Bool) :
    ∀ (l : List Char) (c : Char), c ∈ l → c ∈ l.dropWhile p ∨ p c = true := by
  intro l
  induction l with
  | nil => intro c h; cases h
  | cons a as ih =>
    intro c h
    rw [List.dropWhile_cons]
    by_cases hp : p a = true
    · rw [if_pos hp]
      rcases List.mem_cons.mp h with rfl | hm
      · exact Or.inr hp
      · exact ih c hm
    · rw [if_neg hp]; exact Or.inl h

theorem rstripWith_getLast_false (p : Char → Bool) (l : List Char) (c : Char)
    (h : (rstripWith p l).getLast? = some c) : p c = false := by
  rw [rstripWith, List.getLast?_reverse] at h
  exact dropWhile_head_false p l.reverse c h

theorem rstripWith_eq_self (p : Char → Bool) (l : List Char)
    (h : ∀ c, l.getLast? = some c → p c = false) : rstripWith p l = l := by
  rw [rstripWith, dropWhile_eq_self_of_head p l.reverse, List.reverse_reverse]
  intro c hc
  rw [List.head?_reverse] at hc
  exact h c hc

theorem mem_rstripWith_or (p : Char → Bool) (l : List Char) (c : Char)
    (h : c ∈ l) : c ∈ rstripWith p l ∨ p c = true := by
  rcases mem_dropWhile_or p l.reverse c (List.mem_reverse.mpr h) with hm | hp
  · exact Or.inl (List.mem_reverse.mpr hm)
  · exact Or.inr hp

theorem getLast?_eq_of_suffix {s r : List Char} (h : s <:+ r) {c : Char}
    (hs : s.getLast? = some c) : r.getLast? = some c := by
  obtain ⟨t, rfl⟩ := h
  rw [List.getLast?_append, hs]
  rfl

theorem pyStrip_head_false (l : List Char) (c : Char)
    (h : (pyStrip l).head? = some c) : pyIsSpace c = false :=
  dropWhile_head_false pyIsSpace (rstripWith pyIsSpace l) c h

theorem pyStrip_getLast_false (l : List Char) (c : Char)
    (h : (pyStrip l).getLast? = some c) : pyIsSpace c = false := by
  have hs : pyStrip l <:+ rstripWith pyIsSpace l := List.dropWhile_suffix _
  exact rstripWith_getLast_false pyIsSpace l c (getLast?_eq_of_suffix hs h)

theorem pyStrip_idem (l : List Char) : pyStrip (pyStrip l) = pyStrip l := by
  have h1 : rstripWith pyIsSpace (pyStrip l) = pyStrip l :=
    rstripWith_eq_self _ _ (fun c hc => pyStrip_getLast_false l c hc)
  rw [pyStrip, lstripWith, h1]
  exact dropWhile_eq_self_of_head _ _ (fun c hc => pyStrip_head_false l c hc)

theorem crlf_is_space {c : Char} (h : (c = '\r' || c = '\n') = true) :
    pyIsSpace c = true := by
  rcases Bool.or_eq_true_iff.mp h with h1 | h1
  · rw [decide_eq_true_iff.mp h1]; decide
  · rw [decide_eq_true_iff.mp h1]; decide

theorem rstripCRLF_pyStrip (l : List Char) : rstripCRLF (pyStrip l) = pyStrip l := by
  refine rstripWith_eq_self _ _ (fun c hc => ?_)
  have hsp := pyStrip_getLast_false l c hc
  refine Bool.eq_false_iff.mpr (fun h => ?_)
  rw [crlf_is_space h] at hsp
  exact absurd hsp (by decide)

theorem rstripCRLF_idem (l : List Char) : rstripCRLF (rstripCRLF l) = rstripCRLF l :=
  rstripWith_eq_self _ _ (fun c hc => rstripWith_getLast_false _ l c hc)

theorem mem_pyStrip_or (l : List Char) (c : Char) (h : c ∈ l) :
    pyIsSpace c = true ∨ c ∈ pyStrip l := by
  rcases mem_rstripWith_or pyIsSpace l c h with hm | hp
  · rcases mem_dropWhile_or pyIsSpace _ c hm with hm2 | hp2
    · exact Or.inr hm2
    · exact Or.inl hp2
  · exact Or.inl hp

-- ---------------------------------------------------------------------------
-- Lemmas for `clean_output`
-- ---------------------------------------------------------------------------

theorem ansiSubFuel_of_not_esc (l : List Char) (h : '\x1b' ∉ l) :
    ∀ n, ansiSubFuel n l = l := by
  induction l with
  | nil => intro n; cases n <;> rfl
  | cons c rest ih =>
    intro n
    cases n with
    | zero => rfl
    | succ m =>
      have hc : ¬ (c = '\x1b') := fun hh => h (hh ▸ List.mem_cons_self c rest)
      have hr : '\x1b' ∉ rest := fun hh => h (List.mem_cons_of_mem _ hh)
      simp only [ansiSubFuel, if_neg hc]
      rw [ih hr m]

theorem esc_not_mem_clean_output (x : List Char) : '\x1b' ∉ clean_output x := by
  intro hm
  have := (List.mem_filter.mp hm).2
  exact absurd this (by decide)

theorem clean_output_idem (x : List Char) :
    clean_output (clean_output x) = clean_output x := by
  have h1 : ansiSub (clean_output x) = clean_output x :=
    ansiSubFuel_of_not_esc _ (esc_not_mem_clean_output x) _
  show (ansiSub (clean_output x)).filter pyPrintable = clean_output x
  rw [h1, clean_output, List.filter_filter]
  simp

-- ---------------------------------------------------------------------------
-- Claim C10: the output cleaner is total and idempotent
-- ---------------------------------------------------------------------------

/-- C10: `clean_output` is a total pure function (it is a Lean `def` into
`List Char`) and idempotent: the first application removes every ESC
character, so the ANSI pattern cannot match the cleaned text, and the
printable filter is a fixed point on its own output. -/
theorem claim_C10_clean_output_idempotent (x : List Char) :
    clean_output (clean_output x) = clean_output x ∧ '\x1b' ∉ clean_output x :=
  ⟨clean_output_idem x, esc_not_mem_clean_output x⟩

-- ---------------------------------------------------------------------------
-- Claim C1: release semantics of `_disconnect_device`
-- ---------------------------------------------------------------------------

/-- C1: with connection-cache TTL > 0 and no force flag, release never
disconnects and only refreshes the cached `last_used` (so a second
release in a row again only refreshes it); with TTL = 0 release
disconnects exactly when the session still reports connected. -/
theorem claim_C1_release_semantics (ttl : ℤ) (force : Bool) (now now2 : ℚ)
    (d : Device) (cache : List (String × ℚ)) :
    (0 < ttl → force = false →
      disconnect_device ttl force now (some d) cache =
        ⟨some d, updateLastUsed d.name now cache, false⟩ ∧
      disconnect_device ttl force now2
          (disconnect_device ttl force now (some d) cache).dev
          (disconnect_device ttl force now (some d) cache).cache =
        ⟨some d, updateLastUsed d.name now2 (updateLastUsed d.name now cache),
          false⟩) ∧
    (ttl = 0 →
      disconnect_device ttl force now (some d) cache =
        ⟨some ⟨d.name, false⟩, cache, d.connected⟩) := by
  constructor
  · intro h1 h2
    subst h2
    refine ⟨by simp [disconnect_device, h1], ?_⟩
    simp [disconnect_device, h1]
  · intro h0
    subst h0
    cases d with
    | mk nm conn =>
      cases conn <;> simp [disconnect_device]

/-- Witness for C1 at concrete inputs. -/
theorem claim_C1_witness :
    disconnect_device 30 false 7 (some ⟨"R1", true⟩) [("R1", 2)] =
      ⟨some ⟨"R1", true⟩, [("R1", 7)], false⟩ ∧
    disconnect_device 0 false 7 (some ⟨"R1", true⟩) [("R1", 2)] =
      ⟨some ⟨"R1", false⟩, [("R1", 2)], true⟩ := by
  refine ⟨?_, ?_⟩
  · have h := ((claim_C1_release_semantics 30 false 7 7 ⟨"R1", true⟩
      [("R1", 2)]).1 (by decide) rfl).1
    rw [h]; decide
  · have h := (claim_C1_release_semantics 0 false 7 7 ⟨"R1", true⟩
      [("R1", 2)]).2 rfl
    rw [h]

-- ---------------------------------------------------------------------------
-- Claim C9: unknown device name
-- ---------------------------------------------------------------------------

/-- C9: a device name absent from the loaded testbed makes `_get_device`
fail with the not-found `ValueError` naming the device, leaves all state
unchanged, and never invokes `connect`. -/
theorem claim_C9_unknown_device (ttl : ℤ) (now : ℚ) (path : String)
    (connectOk : Bool) (env : DevEnv) (name : String)
    (h : name ∉ env.tbDevices) :
    get_device ttl now path connectOk env name =
      ⟨.error (deviceNotFoundMsg name path), env, false⟩ := by
  have hc : env.tbDevices.contains name = false := by
    rw [Bool.eq_false_iff]
    intro hcon
    exact h (by simpa using hcon)
  simp only [get_device, hc, reduceIte]

/-- Witness for C9 at concrete inputs. -/
theorem claim_C9_witness :
    get_device 30 5 "tb.yaml" true ⟨["R1"], [], []⟩ "R9" =
      ⟨.error (deviceNotFoundMsg "R9" "tb.yaml"), ⟨["R1"], [], []⟩, false⟩ :=
  claim_C9_unknown_device 30 5 "tb.yaml" true ⟨["R1"], [], []⟩ "R9" (by decide)

-- ---------------------------------------------------------------------------
-- Claim C2: testbed-cache TTL behaviour
-- ---------------------------------------------------------------------------

/-- C2 counterexample: with TTL = 0 and a cached snapshot, a call whose
sampled `time.time()` equals the cached `loaded_at` does NOT reload (the
code requires `now - loaded_at > 0` strictly), contradicting "when the
TTL is 0, the topology descriptor is reloaded on every call". -/
theorem claim_C2_counterexample :
    (load_testbed 0 5 0 ⟨0, none⟩).reloaded = true ∧
    (load_testbed 0 5 1 (load_testbed 0 5 0 ⟨0, none⟩).cache).reloaded = false ∧
    (load_testbed 0 5 1 (load_testbed 0 5 0 ⟨0, none⟩).cache).tb = 0 := by
  have h1 : load_testbed 0 5 0 ⟨0, none⟩ = ⟨0, ⟨5, some 0⟩, true⟩ := by
    simp [load_testbed]
  have h2 : load_testbed 0 5 1 ⟨5, some 0⟩ = ⟨0, ⟨5, some 0⟩, false⟩ := by
    norm_num [load_testbed]
    simp
  refine ⟨?_, ?_, ?_⟩ <;> simp [h1, h2]

/-- C2 amended: with TTL < 0 every call with a non-decreasing clock
reloads; with TTL ≤ 0 every call sampling a strictly later clock than the
cached load (or finding no snapshot) reloads; with TTL > 0, a call within
the TTL window of a cached load returns the identical snapshot instance
without reloading, and a call after the window has elapsed performs
exactly one reload (an immediately following in-window call does not
reload again). -/
theorem claim_C2_amended_ttl_cache (ttl : ℤ) (now t t2 t3 : ℚ)
    (fresh f2 f3 v : ℕ) (c : TBCache) :
    (ttl < 0 → now ≥ c.loaded_at →
      (load_testbed ttl now fresh c).reloaded = true ∧
      (load_testbed ttl now fresh c).tb = fresh) ∧
    (ttl ≤ 0 → (c.tb = none ∨ now > c.loaded_at) →
      (load_testbed ttl now fresh c).reloaded = true ∧
      (load_testbed ttl now fresh c).tb = fresh) ∧
    (0 < ttl → t2 - t ≤ (ttl : ℚ) →
      load_testbed ttl t2 f2 ⟨t, some v⟩ = ⟨v, ⟨t, some v⟩, false⟩) ∧
    (0 < ttl → t2 - t > (ttl : ℚ) →
      load_testbed ttl t2 f2 ⟨t, some v⟩ = ⟨f2, ⟨t2, some f2⟩, true⟩ ∧
      (t3 - t2 ≤ (ttl : ℚ) →
        load_testbed ttl t3 f3 (load_testbed ttl t2 f2 ⟨t, some v⟩).cache =
          ⟨f2, ⟨t2, some f2⟩, false⟩)) := by
  have hcast : ttl < 0 → (ttl : ℚ) < 0 := fun h => by exact_mod_cast h
  have hcast2 : ttl ≤ 0 → (ttl : ℚ) ≤ 0 := fun h => by exact_mod_cast h
  refine ⟨?_, ?_, ?_, ?_⟩
  · intro h1 h2
    have : now - c.loaded_at > (ttl : ℚ) := by
      have := hcast h1; linarith
    simp [load_testbed, this]
  · intro h1 h2
    rcases h2 with h2 | h2
    · simp [load_testbed, h2]
    · have : now - c.loaded_at > (ttl : ℚ) := by
        have := hcast2 h1; linarith
      simp [load_testbed, this]
  · intro h1 h2
    have hnot : ¬ (t2 - t > (ttl : ℚ)) := not_lt.mpr h2
    simp [load_testbed, hnot]
  · intro h1 h2
    have he : load_testbed ttl t2 f2 ⟨t, some v⟩ = ⟨f2, ⟨t2, some f2⟩, true⟩ := by
      simp [load_testbed, h2]
    refine ⟨he, fun h3 => ?_⟩
    rw [he]
    have hnot : ¬ (t3 - t2 > (ttl : ℚ)) := not_lt.mpr h3
    simp [load_testbed, hnot]

/-- Witness for the amended C2 at concrete inputs. -/
theorem claim_C2_amended_witness :
    load_testbed 30 40 3 ⟨20, some 7⟩ = ⟨7, ⟨20, some 7⟩, false⟩ ∧
    load_testbed 30 60 3 ⟨20, some 7⟩ = ⟨3, ⟨60, some 3⟩, true⟩ := by
  constructor
  · exact (claim_C2_amended_ttl_cache 30 0 20 40 0 0 3 0 7 ⟨0, none⟩).2.2.1
      (by norm_num) (by norm_num)
  · exact ((claim_C2_amended_ttl_cache 30 0 20 60 0 0 3 0 7 ⟨0, none⟩).2.2.2
      (by norm_num) (by norm_num)).1

-- ---------------------------------------------------------------------------
-- Claim C4: show-command validation rules
-- ---------------------------------------------------------------------------

/-- Unfolding equation for `validate_show_command` (zeta-reduced body). -/
theorem validate_show_command_unfold (cmd : List Char) :
    validate_show_command cmd =
      (if isPrefB (strL "show") (lowerL (pyStrip cmd)) = false then
        some (strL "Command \x27" ++ cmd ++ strL "\x27 is not a \x27show\x27 command.")
      else if SHOW_BLOCK_CHARS.any
          (fun ch => (lowerL (pyStrip cmd)).contains ch) = true then
        some (strL "Command \x27" ++ cmd ++
          strL "\x27 contains disallowed pipe/redirection.")
      else
        match (tokensOf (lowerL (pyStrip cmd))).find?
            (fun t => SHOW_BLOCK_WORDS.contains t) with
        | some t =>
          some (strL "Command \x27" ++ cmd ++ strL "\x27 contains disallowed term \x27" ++
            t ++ strL "\x27.")
        | none => none) := rfl

/-- C4: `validate_show_command` applies its rules in order and returns the
first matching rejection — not-a-show when the trimmed lower-cased command
does not start with "show", pipe/redirection when a blocked character
occurs, a disallowed-term rejection when a word token is in the blocked
set — and no error otherwise; with the three concrete examples from the
claim. -/
theorem claim_C4_validate_show_rules (cmd : List Char) :
    (validate_show_command cmd = none ↔
      isPrefB (strL "show") (lowerL (pyStrip cmd)) = true ∧
      (∀ ch ∈ SHOW_BLOCK_CHARS, ch ∉ lowerL (pyStrip cmd)) ∧
      (∀ t ∈ tokensOf (lowerL (pyStrip cmd)), t ∉ SHOW_BLOCK_WORDS)) ∧
    (isPrefB (strL "show") (lowerL (pyStrip cmd)) = false →
      validate_show_command cmd =
        some (strL "Command \x27" ++ cmd ++ strL "\x27 is not a \x27show\x27 command.")) ∧
    (isPrefB (strL "show") (lowerL (pyStrip cmd)) = true →
      (∃ ch ∈ SHOW_BLOCK_CHARS, ch ∈ lowerL (pyStrip cmd)) →
      validate_show_command cmd =
        some (strL "Command \x27" ++ cmd ++
          strL "\x27 contains disallowed pipe/redirection.")) ∧
    (∀ t, isPrefB (strL "show") (lowerL (pyStrip cmd)) = true →
      (∀ ch ∈ SHOW_BLOCK_CHARS, ch ∉ lowerL (pyStrip cmd)) →
      (tokensOf (lowerL (pyStrip cmd))).find?
          (fun t => SHOW_BLOCK_WORDS.contains t) = some t →
      validate_show_command cmd =
        some (strL "Command \x27" ++ cmd ++ strL "\x27 contains disallowed term \x27" ++
          t ++ strL "\x27.")) ∧
    validate_show_command (strL "show version") = none ∧
    validate_show_command (strL "show running-config | include foo") =
      some (strL "Command \x27show running-config | include foo\x27 contains disallowed pipe/redirection.") ∧
    validate_show_command (strL "delete flash:old.bin") =
      some (strL "Command \x27delete flash:old.bin\x27 is not a \x27show\x27 command.") := by
  refine ⟨?_, ?_, ?_, ?_, by decide, by decide, by decide⟩
  · rw [validate_show_command_unfold]
    by_cases h1 : isPrefB (strL "show") (lowerL (pyStrip cmd)) = true
    · have hn : ¬ (isPrefB (strL "show") (lowerL (pyStrip cmd)) = false) := by
        simp [h1]
      rw [if_neg hn]
      by_cases h2 : SHOW_BLOCK_CHARS.any
          (fun ch => (lowerL (pyStrip cmd)).contains ch) = true
      · rw [if_pos h2]
        constructor
        · intro h; exact absurd h (by simp)
        · rintro ⟨-, h2', -⟩
          obtain ⟨ch, hch, hcon⟩ := List.any_eq_true.mp h2
          exact ((h2' ch hch) (by simpa using hcon)).elim
      · rw [if_neg h2]
        cases h3 : (tokensOf (lowerL (pyStrip cmd))).find?
            (fun t => SHOW_BLOCK_WORDS.contains t) with
        | some t =>
          constructor
          · intro h; exact absurd h (by simp)
          · rintro ⟨-, -, h3'⟩
            have hmem := List.mem_of_find?_eq_some h3
            have hpred := List.find?_some h3
            exact ((h3' t hmem) (by simpa using hpred)).elim
        | none =>
          constructor
          · intro _
            refine ⟨h1, ?_, ?_⟩
            · intro ch hch hm
              exact h2 (List.any_eq_true.mpr ⟨ch, hch, by simpa using hm⟩)
            · intro t ht hmem
              exact (List.find?_eq_none.mp h3 t ht) (by simpa using hmem)
          · intro _; rfl
    · have hf : isPrefB (strL "show") (lowerL (pyStrip cmd)) = false :=
        Bool.eq_false_iff.mpr h1
      rw [if_pos hf]
      constructor
      · intro h; exact absurd h (by simp)
      · rintro ⟨h1', -, -⟩
        rw [h1'] at hf
        exact absurd hf (by decide)
  · intro h
    rw [validate_show_command_unfold, if_pos h]
  · intro h1 hex
    have hn : ¬ (isPrefB (strL "show") (lowerL (pyStrip cmd)) = false) := by
      simp [h1]
    have h2 : SHOW_BLOCK_CHARS.any
        (fun ch => (lowerL (pyStrip cmd)).contains ch) = true := by
      obtain ⟨ch, hch, hm⟩ := hex
      exact List.any_eq_true.mpr ⟨ch, hch, by simpa using hm⟩
    rw [validate_show_command_unfold, if_neg hn, if_pos h2]
  · intro t h1 h2 h3
    have hn : ¬ (isPrefB (strL "show") (lowerL (pyStrip cmd)) = false) := by
      simp [h1]
    have h2b : ¬ (SHOW_BLOCK_CHARS.any
        (fun ch => (lowerL (pyStrip cmd)).contains ch) = true) := by
      intro hany
      obtain ⟨ch, hch, hcon⟩ := List.any_eq_true.mp hany
      exact h2 ch hch (by simpa using hcon)
    rw [validate_show_command_unfold, if_neg hn, if_neg h2b, h3]

/-- Witness for C4: the rejection branch applied at a concrete command. -/
theorem claim_C4_witness :
    validate_show_command (strL "configure terminal") =
      some (strL "Command \x27configure terminal\x27 is not a \x27show\x27 command.") :=
  (claim_C4_validate_show_rules (strL "configure terminal")).2.1 (by decide)

-- ---------------------------------------------------------------------------
-- Claim C5: script safety gate
-- ---------------------------------------------------------------------------

/-- C5: `reject_unsafe_script` scans the banned import tokens first, then
the banned patterns, case-insensitively, returning the first match; it
passes exactly the scripts with no banned import phrase and no banned
pattern occurrence; `import socket` is rejected naming socket and a clean
script passes. -/
theorem claim_C5_reject_unsafe_script (s : List Char) :
    (reject_unsafe_script s = none ↔
      (∀ tok ∈ BANNED_IMPORTS, importHit (lowerL s) tok = false) ∧
      (∀ pat ∈ BANNED_PATTERNS, patternHit s pat = false)) ∧
    (∀ tok, BANNED_IMPORTS.find? (importHit (lowerL s)) = some tok →
      reject_unsafe_script s =
        some (strL "Script contains banned import: " ++ tok)) ∧
    (∀ pat, BANNED_IMPORTS.find? (importHit (lowerL s)) = none →
      BANNED_PATTERNS.find? (patternHit s) = some pat →
      reject_unsafe_script s =
        some (strL "Script contains banned pattern: " ++ pat.1)) ∧
    reject_unsafe_script (strL "import socket\nprint(1)") =
      some (strL "Script contains banned import: socket") ∧
    reject_unsafe_script (strL "x = 1\nprint(x)") = none := by
  refine ⟨?_, ?_, ?_, by decide, by decide⟩
  · constructor
    · intro h
      cases hf : BANNED_IMPORTS.find? (importHit (lowerL s)) with
      | some tok => exfalso; simp [reject_unsafe_script, hf] at h
      | none =>
        cases hp : BANNED_PATTERNS.find? (patternHit s) with
        | some pat => exfalso; simp [reject_unsafe_script, hf, hp] at h
        | none =>
          exact ⟨fun tok ht => Bool.eq_false_iff.mpr (List.find?_eq_none.mp hf tok ht),
            fun pat hp2 => Bool.eq_false_iff.mpr (List.find?_eq_none.mp hp pat hp2)⟩
    · rintro ⟨h1, h2⟩
      have hf : BANNED_IMPORTS.find? (importHit (lowerL s)) = none :=
        List.find?_eq_none.mpr (fun tok ht => by simp [h1 tok ht])
      have hp : BANNED_PATTERNS.find? (patternHit s) = none :=
        List.find?_eq_none.mpr (fun pat hpt => by simp [h2 pat hpt])
      simp [reject_unsafe_script, hf, hp]
  · intro tok h
    simp [reject_unsafe_script, h]
  · intro pat h1 h2
    simp [reject_unsafe_script, h1, h2]

/-- Witness for C5: the import branch applied at a concrete script. -/
theorem claim_C5_witness :
    reject_unsafe_script (strL "import telnetlib") =
      some (strL "Script contains banned import: telnetlib") :=
  (claim_C5_reject_unsafe_script (strL "import telnetlib")).2.1
    (strL "telnetlib") (by decide)

-- ---------------------------------------------------------------------------
-- Claim C3: show-command pipeline error handling
-- ---------------------------------------------------------------------------

/-- A concrete oracle in which acquisition and execution succeed, a parser
class is available, and the parse attempt raises. -/
def parseFailOracle : ShowOracle :=
  ⟨.ok (), .ok (strL "Cisco IOS XE"), .ok true, .error (strL "parser boom")⟩

/-- C3 counterexample: when the parse stage raises, the pipeline does NOT
return an error outcome — the inner `except` logs the failure and falls
back to a `completed` outcome carrying only the raw output.  This refutes
the claim that a parse failure yields an error-state outcome. -/
theorem claim_C3_counterexample :
    (run_show_command parseFailOracle (strL "R1") (strL "show version")).outcome.status =
      strL "completed" ∧
    (run_show_command parseFailOracle (strL "R1") (strL "show version")).outcome.error =
      none := by
  constructor <;> decide

/-- Evaluation of the pipeline body once validation has passed. -/
theorem run_show_command_eval (o : ShowOracle) (name cmd : List Char)
    (hv : validate_show_command cmd = none) :
    run_show_command o name cmd =
      (match o.getDevice with
      | .error e => ⟨showError name cmd e, true, none⟩
      | .ok dev =>
        match o.execute with
        | .error e => ⟨showError name cmd e, true, some dev⟩
        | .ok raw =>
          match o.getParserResult with
          | .error e => ⟨showError name cmd e, true, some dev⟩
          | .ok false =>
            ⟨⟨strL "completed", some name, some cmd, none,
              some (clean_output raw), some false, none⟩, true, some dev⟩
          | .ok true =>
            match o.parseResult with
            | .ok parsed =>
              ⟨⟨strL "completed", some name, some cmd, some parsed,
                some (clean_output raw), some true, none⟩, true, some dev⟩
            | .error _ =>
              ⟨⟨strL "completed", some name, some cmd, none,
                some (clean_output raw), some false, none⟩, true, some dev⟩) := by
  rw [run_show_command, hv]

/-- The two status strings differ. -/
theorem completed_ne_error : strL "completed" ≠ strL "error" := by decide

/-- C3 amended: after validation passes, a failure in device lookup,
connect, execute or parser lookup yields an error outcome carrying device
name, attempted command and the exception text; a parse failure instead
falls back to a completed outcome with the cleaned raw output; the
outcome status is always completed or error (no exception escapes), error
outcomes always carry device, command and message, and the
`finally`-release step runs on every such path. -/
theorem claim_C3_amended_pipeline (o : ShowOracle) (name cmd : List Char)
    (hv : validate_show_command cmd = none) :
    (run_show_command o name cmd).releaseRan = true ∧
    ((run_show_command o name cmd).outcome.status = strL "completed" ∨
      (run_show_command o name cmd).outcome.status = strL "error") ∧
    ((run_show_command o name cmd).outcome.status = strL "error" →
      (run_show_command o name cmd).outcome.device = some name ∧
      (run_show_command o name cmd).outcome.command = some cmd ∧
      (run_show_command o name cmd).outcome.error.isSome = true) ∧
    (∀ e, o.getDevice = .error e →
      run_show_command o name cmd = ⟨showError name cmd e, true, none⟩) ∧
    (∀ dev e, o.getDevice = .ok dev → o.execute = .error e →
      run_show_command o name cmd = ⟨showError name cmd e, true, some dev⟩) ∧
    (∀ dev raw e, o.getDevice = .ok dev → o.execute = .ok raw →
      o.getParserResult = .error e →
      run_show_command o name cmd = ⟨showError name cmd e, true, some dev⟩) ∧
    (∀ dev raw e, o.getDevice = .ok dev → o.execute = .ok raw →
      o.getParserResult = .ok true → o.parseResult = .error e →
      run_show_command o name cmd =
        ⟨⟨strL "completed", some name, some cmd, none, some (clean_output raw),
          some false, none⟩, true, some dev⟩) := by
  rw [run_show_command_eval o name cmd hv]
  obtain ⟨gd, ex, gp, pr⟩ := o
  cases gd with
  | error e0 =>
    refine ⟨rfl, Or.inr rfl, fun _ => ⟨rfl, rfl, rfl⟩, ?_, ?_, ?_, ?_⟩
    · intro e h; injection h with he; subst he; rfl
    · intro dev e h1 h2; exact absurd h1 (by simp)
    · intro dev raw e h1 h2 h3; exact absurd h1 (by simp)
    · intro dev raw e h1 h2 h3 h4; exact absurd h1 (by simp)
  | ok dev0 =>
    cases ex with
    | error e0 =>
      refine ⟨rfl, Or.inr rfl, fun _ => ⟨rfl, rfl, rfl⟩, ?_, ?_, ?_, ?_⟩
      · intro e h; exact absurd h (by simp)
      · intro dev e h1 h2
        injection h1 with hd; injection h2 with he
        subst hd; subst he; rfl
      · intro dev raw e h1 h2 h3; exact absurd h2 (by simp)
      · intro dev raw e h1 h2 h3 h4; exact absurd h2 (by simp)
    | ok raw0 =>
      cases gp with
      | error e0 =>
        refine ⟨rfl, Or.inr rfl, fun _ => ⟨rfl, rfl, rfl⟩, ?_, ?_, ?_, ?_⟩
        · intro e h; exact absurd h (by simp)
        · intro dev e h1 h2; exact absurd h2 (by simp)
        · intro dev raw e h1 h2 h3
          injection h1 with hd; injection h2 with hr; injection h3 with he
          subst hd; subst hr; subst he; rfl
        · intro dev raw e h1 h2 h3 h4; exact absurd h3 (by simp)
      | ok hasParser =>
        cases hasParser with
        | false =>
          refine ⟨rfl, Or.inl rfl, fun hst => absurd hst completed_ne_error,
            ?_, ?_, ?_, ?_⟩
          · intro e h; exact absurd h (by simp)
          · intro dev e h1 h2; exact absurd h2 (by simp)
          · intro dev raw e h1 h2 h3; exact absurd h3 (by simp)
          · intro dev raw e h1 h2 h3 h4; exact absurd h3 (by simp)
        | true =>
          cases pr with
          | ok parsed0 =>
            refine ⟨rfl, Or.inl rfl, fun hst => absurd hst completed_ne_error,
              ?_, ?_, ?_, ?_⟩
            · intro e h; exact absurd h (by simp)
            · intro dev e h1 h2; exact absurd h2 (by simp)
            · intro dev raw e h1 h2 h3; exact absurd h3 (by simp)
            · intro dev raw e h1 h2 h3 h4; exact absurd h4 (by simp)
          | error pe0 =>
            refine ⟨rfl, Or.inl rfl, fun hst => absurd hst completed_ne_error,
              ?_, ?_, ?_, ?_⟩
            · intro e h; exact absurd h (by simp)
            · intro dev e h1 h2; exact absurd h2 (by simp)
            · intro dev raw e h1 h2 h3; exact absurd h3 (by simp)
            · intro dev raw e h1 h2 h3 h4
              injection h1 with hd; injection h2 with hr
              subst hd; subst hr; rfl

/-- Witness for the amended C3: the execute-failure branch at concrete
inputs. -/
theorem claim_C3_amended_witness :
    run_show_command ⟨.ok (), .error (strL "socket closed"), .ok false, .ok []⟩
        (strL "R1") (strL "show version") =
      ⟨showError (strL "R1") (strL "show version") (strL "socket closed"),
        true, some ()⟩ :=
  (claim_C3_amended_pipeline
      ⟨.ok (), .error (strL "socket closed"), .ok false, .ok []⟩
      (strL "R1") (strL "show version") (by decide)).2.2.2.2.1
    () (strL "socket closed") rfl rfl

-- ---------------------------------------------------------------------------
-- Claim C6: test-script runner payload
-- ---------------------------------------------------------------------------

/-- C6: whenever the subprocess completes within the timeout, the runner
returns a completed payload carrying return code, overall verdict,
stdout, stderr, parsed report or null, and the artifact paths, for every
exit code; a missing, unreadable or blank report file leaves the report
field null without failing the run. -/
theorem claim_C6_runner_payload (o : RunOracle) (timeout_s : ℤ)
    (keepArtifacts : Bool) (runDir : List Char) (r : SubpResult)
    (hs : o.setupOk = true) (hr : o.subp = some r) :
    run_test_script o timeout_s keepArtifacts runDir =
      ⟨strL "completed", some r.returncode, some (extract_overall_result r.stdout),
        some r.stdout, some r.stderr,
        (match o.report with
          | .parsed d => some d
          | _ => none),
        none, runDir, true, ! keepArtifacts⟩ ∧
    ((o.report = .absent ∨ o.report = .unreadable ∨ o.report = .blank) →
      (run_test_script o timeout_s keepArtifacts runDir).report = none) ∧
    (∀ d, o.report = .parsed d →
      (run_test_script o timeout_s keepArtifacts runDir).report = some d) := by
  obtain ⟨so, sp, rep⟩ := o
  cases hs
  cases hr
  refine ⟨rfl, ?_, ?_⟩
  · rintro (rfl | rfl | rfl) <;> rfl
  · rintro d rfl
    rfl

/-- Witness for C6: a non-zero exit code with an unreadable report still
yields a completed payload with a null report. -/
theorem claim_C6_witness :
    run_test_script ⟨true, some ⟨2, strL "Overall result: FAILED", strL "warn"⟩,
        .unreadable⟩ 300 true (strL "/tmp/run1") =
      ⟨strL "completed", some 2,
        some (extract_overall_result (strL "Overall result: FAILED")),
        some (strL "Overall result: FAILED"), some (strL "warn"),
        none, none, strL "/tmp/run1", true, false⟩ :=
  (claim_C6_runner_payload ⟨true, some ⟨2, strL "Overall result: FAILED", strL "warn"⟩,
      .unreadable⟩ 300 true (strL "/tmp/run1")
      ⟨2, strL "Overall result: FAILED", strL "warn"⟩ rfl rfl).1

-- ---------------------------------------------------------------------------
-- Lemmas for configuration normalization
-- ---------------------------------------------------------------------------

theorem splitOnChar_ne_nil (sep : Char) (l : List Char) :
    splitOnChar sep l ≠ [] := by
  cases l with
  | nil => simp [splitOnChar]
  | cons c rest =>
    rw [splitOnChar]
    by_cases h : c = sep
    · simp [h]
    · rw [if_neg h]
      cases splitOnChar sep rest <;> simp

theorem splitOnChar_not_mem_sep (sep : Char) :
    ∀ (l seg : List Char), seg ∈ splitOnChar sep l → sep ∉ seg := by
  intro l
  induction l with
  | nil =>
    intro seg h
    simp [splitOnChar] at h
    subst h
    simp
  | cons c rest ih =>
    intro seg h
    rw [splitOnChar] at h
    by_cases hc : c = sep
    · rw [if_pos hc] at h
      rcases List.mem_cons.mp h with rfl | hm
      · simp
      · exact ih seg hm
    · rw [if_neg hc] at h
      cases hrec : splitOnChar sep rest with
      | nil => exact absurd hrec (splitOnChar_ne_nil sep rest)
      | cons h0 t0 =>
        rw [hrec] at h
        rcases List.mem_cons.mp h with rfl | hm
        · intro hmem
          rcases List.mem_cons.mp hmem with rfl | hm2
          · exact hc rfl
          · exact ih h0 (hrec ▸ List.mem_cons_self h0 t0) hm2
        · exact ih seg (hrec ▸ List.mem_cons_of_mem h0 hm)

theorem mem_of_mem_pyStrip {p : List Char} {c : Char} (h : c ∈ pyStrip p) :
    c ∈ p := by
  have h1 : c ∈ rstripWith pyIsSpace p := (List.dropWhile_sublist _).subset h
  rw [rstripWith, List.mem_reverse] at h1
  exact List.mem_reverse.mp ((List.dropWhile_sublist _).subset h1)

/-- The invariant every line of the normalization output satisfies. -/
def GoodLine (l : List Char) : Prop :=
  rstripCRLF l = l ∧ pyStrip l ≠ [] ∧ ';' ∉ l ∧
  lowerL (pyStrip l) ∉ WRAPPER_LINES

/-- Unfolding equation for `processLine` (zeta-reduced body). -/
theorem processLine_eq (line : List Char) :
    processLine line =
      (if pyStrip (rstripCRLF line) = [] then []
      else if (rstripCRLF line).contains ';' then
        ((((splitOnChar ';' (rstripCRLF line)).map pyStrip).filter
          (fun p => p ≠ [])).filter
            (fun p => ! WRAPPER_LINES.contains (lowerL p)))
      else if WRAPPER_LINES.contains (lowerL (pyStrip (rstripCRLF line))) then []
      else [rstripCRLF line]) := rfl

theorem processLine_good (s l : List Char) (h : l ∈ processLine s) : GoodLine l := by
  rw [processLine_eq] at h
  by_cases h1 : pyStrip (rstripCRLF s) = []
  · rw [if_pos h1] at h; cases h
  · rw [if_neg h1] at h
    by_cases h2 : (rstripCRLF s).contains ';' = true
    · rw [if_pos h2] at h
      obtain ⟨hmem1, hq⟩ := List.mem_filter.mp h
      obtain ⟨hmem2, hne⟩ := List.mem_filter.mp hmem1
      obtain ⟨p, hp, rfl⟩ := List.mem_map.mp hmem2
      have hstrip : pyStrip (pyStrip p) = pyStrip p := pyStrip_idem p
      refine ⟨rstripCRLF_pyStrip p, ?_, ?_, ?_⟩
      · rw [hstrip]; simpa using hne
      · intro hsemi
        exact splitOnChar_not_mem_sep ';' (rstripCRLF s) p hp
          (mem_of_mem_pyStrip hsemi)
      · rw [hstrip]
        intro hw
        have hcf : WRAPPER_LINES.contains (lowerL (pyStrip p)) = false := by
          simpa using hq
        have hct : WRAPPER_LINES.contains (lowerL (pyStrip p)) = true := by
          simpa using hw
        rw [hct] at hcf
        exact absurd hcf (by decide)
    · rw [if_neg h2] at h
      by_cases h3 : WRAPPER_LINES.contains (lowerL (pyStrip (rstripCRLF s))) = true
      · rw [if_pos h3] at h; cases h
      · rw [if_neg h3] at h
        rcases List.mem_cons.mp h with rfl | hbad
        · refine ⟨rstripCRLF_idem s, h1, ?_, ?_⟩
          · intro hsemi
            exact h2 (by simpa using hsemi)
          · intro hw
            exact h3 (by simpa using hw)
        · cases hbad

theorem processLine_of_good (l : List Char) (h : GoodLine l) :
    processLine l = [l] := by
  obtain ⟨h1, h2, h3, h4⟩ := h
  rw [processLine_eq, h1, if_neg h2, if_neg ?_, if_neg ?_]
  · intro hw
    exact h4 (by simpa using hw)
  · intro hc
    exact h3 (by simpa using hc)

theorem processLines_good (ls : List (List Char)) (l : List Char)
    (h : l ∈ processLines ls) : GoodLine l := by
  obtain ⟨s, hs, hl⟩ := List.mem_flatMap.mp h
  exact processLine_good s l hl

theorem flatMap_processLine_of_good (m : List (List Char))
    (h : ∀ l ∈ m, GoodLine l) : m.flatMap processLine = m := by
  induction m with
  | nil => rfl
  | cons a rest ih =>
    rw [List.flatMap_cons, processLine_of_good a (h a (List.mem_cons_self a rest)),
      ih (fun l hl => h l (List.mem_cons_of_mem a hl))]
    rfl

theorem processLines_idem (ls : List (List Char)) :
    processLines (processLines ls) = processLines ls :=
  flatMap_processLine_of_good _ (processLines_good ls)

-- ---------------------------------------------------------------------------
-- Claim C7: normalization never emits wrappers, never drops exit
-- ---------------------------------------------------------------------------

/-- C7: for every configuration input, no normalized output line equals a
wrapper string after trimming and lower-casing; a raw line whose trimmed
content is `exit` always survives (with only trailing CR/LF removed); and
the concrete example from the claim evaluates as stated. -/
theorem claim_C7_normalize_invariants :
    (∀ (x : ConfigInput) (l : List Char), l ∈ normalize_config_lines x →
      lowerL (pyStrip l) ∉ WRAPPER_LINES) ∧
    (∀ (x : ConfigInput) (s : List Char), s ∈ rawLinesOf x →
      pyStrip (rstripCRLF s) = strL "exit" →
      rstripCRLF s ∈ normalize_config_lines x) ∧
    normalize_config_lines (.listInput
      [strL "configure terminal", strL "interface Gi0/0", strL " cdp enable",
       strL " exit", strL "end"]) =
    [strL "interface Gi0/0", strL " cdp enable", strL " exit"] := by
  refine ⟨?_, ?_, by decide⟩
  · intro x l h
    exact (processLines_good _ l h).2.2.2
  · intro x s hs hexit
    have hsemi : (rstripCRLF s).contains ';' = false := by
      rw [Bool.eq_false_iff]
      intro hc
      have hm : ';' ∈ rstripCRLF s := by simpa using hc
      rcases mem_pyStrip_or _ ';' hm with hsp | hmem
      · exact absurd hsp (by decide)
      · rw [hexit] at hmem
        exact absurd hmem (by decide)
    have hpl : processLine s = [rstripCRLF s] := by
      rw [processLine_eq, hexit, if_neg (by decide), hsemi,
        if_neg (by decide), if_neg (by decide)]
    show rstripCRLF s ∈ (rawLinesOf x).flatMap processLine
    exact List.mem_flatMap.mpr ⟨s, hs, by rw [hpl]; exact List.mem_singleton.mpr rfl⟩

/-- Witness for C7: the exit-preservation branch at a concrete input. -/
theorem claim_C7_witness :
    rstripCRLF (strL " exit\r\n") ∈
      normalize_config_lines (.listInput [strL " exit\r\n"]) :=
  claim_C7_normalize_invariants.2.1 (.listInput [strL " exit\r\n"])
    (strL " exit\r\n") (by decide) (by decide)

-- ---------------------------------------------------------------------------
-- Claim C8: normalization round-trip
-- ---------------------------------------------------------------------------

/-- C8: feeding the normalized output back in as a list produces the same
result as normalizing the original input directly, for every
configuration input (block string, line list, or `None`). -/
theorem claim_C8_normalize_roundtrip (x : ConfigInput) :
    normalize_config_lines (.listInput (normalize_config_lines x)) =
      normalize_config_lines x :=
  processLines_idem (rawLinesOf x)
